import Mathlib

/-!
Shallow embedding of the sparse/dense vector ingestion and search workflow of
the Qdrant scripts in this repository:

* `src/Qdrant/psadt_fastembed_cloud_fixed.py` — capability probe
  (`supports_sparse_vectors`), ingestion (`create_embeddings_for_commands`)
  and search (`search_psadt_commands`) with sparse→dense fallback;
* `src/Qdrant/psadt_fastembed_cloud.py` — the legacy ingestion, which deletes
  and recreates an existing collection;
* `src/Qdrant/use_existing_collection.py` — ingestion/search against an
  existing collection;
* `src/Qdrant/scripts/generate_embeddings.py` — the batch-ingestion CLI.

The two external collaborators are modelled as parameters: the embedding
library is a pair of functions (corpus entry point `embed` and query entry
point `query_embed`), and the vector store is a state value (`Store`,
collections by name, each holding a configuration and stored points)
together with an oracle for per-record store failures and an oracle for the
results a similarity search returns.  Python dicts are insertion-ordered
association lists; float weights and scores are modelled as rationals.
-/

namespace Qdrant

/-- A payload value: Python scalars appearing in the scripts' dicts. -/
inductive Val where
  | vStr : String → Val
  | vInt : Int → Val
  | vRat : Rat → Val
  deriving DecidableEq, Repr

/-- A Python dict with string keys, as an insertion-ordered association list
(keys unique by construction of `dictSet`). -/
abbrev Payload := List (String × Val)

/-- Python `d.get(k)` / `d[k]`: value at the first occurrence of key `k`. -/
def dictGet (d : Payload) (k : String) : Option Val :=
  match d with
  | [] => none
  | (k', v) :: rest => if k' = k then some v else dictGet rest k

/-- Python `d[k] = v`: replace the value at an existing key in place,
otherwise append the new key at the end (insertion order). -/
def dictSet (d : Payload) (k : String) (v : Val) : Payload :=
  match d with
  | [] => [(k, v)]
  | (k', v') :: rest =>
      if k' = k then (k, v) :: rest else (k', v') :: dictSet rest k v

/-- A sparse embedding: parallel lists of token indices and weights, exactly
as produced by `embedding.indices.tolist()` / `embedding.values.tolist()`.
Indices are modelled as integers so that non-negativity is a property, not a
typing artifact. -/
structure SparseVec where
  indices : List Int
  values : List Rat
  deriving DecidableEq, Repr

/-- The well-formedness invariant the spec states for sparse embeddings:
equal lengths, non-negative indices, pairwise-distinct indices. -/
def SparseVec.wf (sv : SparseVec) : Prop :=
  sv.indices.length = sv.values.length ∧
    (∀ i ∈ sv.indices, 0 ≤ i) ∧ sv.indices.Nodup

instance (sv : SparseVec) : Decidable sv.wf := by
  unfold SparseVec.wf
  infer_instance

/-- Distance metric of a collection's dense vector configuration. -/
inductive Distance where
  | cosine
  | dot
  deriving DecidableEq, Repr

/-- The slice of a Qdrant collection configuration the scripts read and
write: dense vector size + distance, and the named sparse vector fields
(`config.params.sparse_vectors`, insertion order). -/
structure CollectionConfig where
  denseSize : Nat
  distance : Distance
  sparseFields : List String
  deriving DecidableEq, Repr

/-- The vectors attached to one stored point: an optional dense vector
(`vector=None` vs a list) and named sparse vectors (`sparse_vectors={...}`). -/
structure PointVec where
  dense : Option (List Rat)
  sparse : List (String × SparseVec)
  deriving DecidableEq, Repr

/-- One stored point: id, payload, vectors (qmodels.PointStruct). -/
structure Point where
  id : Val
  payload : Payload
  vec : PointVec
  deriving DecidableEq, Repr

/-- A collection: its configuration and its stored points. -/
structure Collection where
  config : CollectionConfig
  points : List Point
  deriving DecidableEq, Repr

/-- The vector store: collections by name. -/
abbrev Store := List (String × Collection)

/-- Models `client.get_collection(name)`: `none` means the client raises. -/
def getCollection (s : Store) (n : String) : Option Collection :=
  match s with
  | [] => none
  | (n', c) :: rest => if n' = n then some c else getCollection rest n

/-- Replace the collection stored under `n` (used to model point uploads). -/
def setCollection (s : Store) (n : String) (c : Collection) : Store :=
  match s with
  | [] => [(n, c)]
  | (n', c') :: rest =>
      if n' = n then (n, c) :: rest else (n', c') :: setCollection rest n c

/-- Models `client.delete_collection(name)`. -/
def deleteCollection (s : Store) (n : String) : Store :=
  s.filter (fun p => p.1 ≠ n)

/-- Models `client.create_collection(name, ...)`: fails (raises) when the
collection already exists; otherwise adds an empty collection. -/
def createCollection (s : Store) (n : String) (cfg : CollectionConfig) :
    Option Store :=
  match getCollection s n with
  | some _ => none
  | none => some (s ++ [(n, ⟨cfg, []⟩)])

/-- Upsert one point: a point with the same id is replaced in place,
otherwise the point is appended. -/
def upsertPoint (ps : List Point) (p : Point) : List Point :=
  if ps.any (fun q => q.id = p.id) then
    ps.map (fun q => if q.id = p.id then p else q)
  else ps ++ [p]

/-- Models `client.upsert(points=new)`: points applied left to right. -/
def upsertPoints (ps : List Point) (new : List Point) : List Point :=
  new.foldl upsertPoint ps

/-- Upsert a batch of points into the named collection of the store
(collection assumed present; upserting into an absent collection raises in
Qdrant, which callers model through their failure handling). -/
def storeUpsert (s : Store) (n : String) (new : List Point) : Store :=
  match getCollection s n with
  | none => s
  | some c => setCollection s n ⟨c.config, upsertPoints c.points new⟩

/-- First point whose id is `x` (the store's view of id `x`). -/
def findPoint (ps : List Point) (x : Val) : Option Point :=
  match ps with
  | [] => none
  | p :: rest => if p.id = x then some p else findPoint rest x

/-- Last point in an upload sequence carrying id `x`. -/
def lastWithId (ps : List Point) (x : Val) : Option Point :=
  match ps with
  | [] => none
  | p :: rest =>
      match lastWithId rest x with
      | some q => some q
      | none => if p.id = x then some p else none

/-! ## Capability probe

`supports_sparse_vectors` in `psadt_fastembed_cloud_fixed.py` (lines 79–94):
it calls `client.get_collection` inside `try: ... except Exception: pass`
and falls through to `return False`, so a missing collection is reported as
`False`, not as an error.  For an existing collection it reports `True`
exactly when `config.params.sparse_vectors` is a non-empty mapping. -/

def supports_sparse_vectors (s : Store) (n : String) : Bool :=
  match getCollection s n with
  | none => false
  | some c => !c.config.sparseFields.isEmpty

/-! ## Records and rendering -/

/-- A PSADT command record as used by the scripts' example data:
id, name, synopsis and the command's `syntax` field (here `synt`). -/
structure Record where
  id : Int
  name : String
  synopsis : String
  synt : String
  deriving DecidableEq, Repr

/-- Rendering `command_text = f"{name}: {synopsis}\n{syntax}"`. -/
def renderCommand (c : Record) : String :=
  c.name ++ ": " ++ c.synopsis ++ "\n" ++ c.synt

/-- The command dict itself is stored as the point payload. -/
def Record.toPayload (c : Record) : Payload :=
  [("id", .vInt c.id), ("name", .vStr c.name),
   ("synopsis", .vStr c.synopsis), ("syntax", .vStr c.synt)]

/-- Constant `COMMANDS_COLLECTION = "psadt_commands"`. -/
def COMMANDS_COLLECTION : String := "psadt_commands"

/-- Collection configuration created for sparse mode: dummy dense slot of
size 1 with dot distance, plus the named sparse field `"text"`. -/
def sparseCreateConfig : CollectionConfig := ⟨1, .dot, ["text"]⟩

/-- Collection configuration created for dense mode: size 384, cosine. -/
def denseCreateConfig : CollectionConfig := ⟨384, .cosine, []⟩

/-! ## Fixed ingestion (`psadt_fastembed_cloud_fixed.py`,
`create_embeddings_for_commands`, lines 96–221)

The embedding model is a parameter (corpus entry points `sEmb`/`dEmb`); the
per-record `try/except` around embedding + upsert is modelled by a failure
oracle `failOrc` deciding which records raise.  The Python function returns
`None`, modelled as `Unit`; `none` overall models an uncaught exception from
`create_collection` (target name already taken). -/

/-- Collection preparation (lines 120–169): returns the resolved collection
name, the `collection_exists` and `supports_sparse` flags, and the store
after any collection creation. -/
def prepCollectionFixed (s : Store) (use_sparse : Bool) :
    Option (String × Bool × Bool × Store) :=
  let cname := COMMANDS_COLLECTION
  match getCollection s cname with
  | some _ =>
      if use_sparse then
        if supports_sparse_vectors s cname then some (cname, true, true, s)
        else
          (createCollection s (cname ++ "_new") sparseCreateConfig).map
            fun s2 => (cname ++ "_new", false, false, s2)
      else some (cname, true, false, s)
  | none =>
      let cfg := if use_sparse then sparseCreateConfig else denseCreateConfig
      (createCollection s cname cfg).map fun s2 => (cname, false, false, s2)

/-- The point built for one record (lines 172–214): sparse branch is taken
when `use_sparse and (not collection_exists or supports_sparse)`; the sparse
point carries the dummy dense vector `[0.0]` and the `"text"` sparse field;
the dense point carries the dense embedding of the rendered text. -/
def ingestPointFixed (use_sparse collection_exists supp : Bool)
    (sEmb : String → SparseVec) (dEmb : String → List Rat) (c : Record) :
    Point :=
  let text := renderCommand c
  if use_sparse && (!collection_exists || supp) then
    ⟨.vInt c.id, c.toPayload, ⟨some [0], [("text", sEmb text)]⟩⟩
  else
    ⟨.vInt c.id, c.toPayload, ⟨some (dEmb text), []⟩⟩

/-- The per-record loop: a failing record is skipped (its error is printed)
and processing continues with the rest. -/
def ingestLoopFixed (use_sparse collection_exists supp : Bool)
    (sEmb : String → SparseVec) (dEmb : String → List Rat)
    (failOrc : Record → Bool) (cname : String) :
    List Record → Store → Store
  | [], s => s
  | c :: rest, s =>
      ingestLoopFixed use_sparse collection_exists supp sEmb dEmb failOrc
        cname rest
        (if failOrc c then s
         else storeUpsert s cname
           [ingestPointFixed use_sparse collection_exists supp sEmb dEmb c])

/-- Function `create_embeddings_for_commands` of the fixed script, end to
end.
The second component of the result is the Python return value (`None`). -/
def create_embeddings_for_commands (s : Store) (use_sparse : Bool)
    (sEmb : String → SparseVec) (dEmb : String → List Rat)
    (failOrc : Record → Bool) (cmds : List Record) : Option (Store × Unit) :=
  (prepCollectionFixed s use_sparse).map fun r =>
    (ingestLoopFixed use_sparse r.2.1 r.2.2.1 sEmb dEmb failOrc r.1 cmds
      r.2.2.2, ())

/-! ## Legacy ingestion (`psadt_fastembed_cloud.py`,
`create_embeddings_for_commands`, lines 85–191)

If the collection exists it is deleted and recreated (lines 109–144); the
upload loop has no per-record error handling, so a failing record aborts the
whole call (`none`). -/

/-- Legacy collection preparation: delete when present, then create with the
configuration for the requested mode. -/
def prepCollectionLegacy (s : Store) (use_sparse : Bool) :
    Option (String × Store) :=
  let cname := COMMANDS_COLLECTION
  let s1 :=
    match getCollection s cname with
    | some _ => deleteCollection s cname
    | none => s
  (createCollection s1 cname
      (if use_sparse then sparseCreateConfig else denseCreateConfig)).map
    fun s2 => (cname, s2)

/-- Legacy point: sparse mode uses `vector=None` plus the `"text"` field. -/
def ingestPointLegacy (use_sparse : Bool) (sEmb : String → SparseVec)
    (dEmb : String → List Rat) (c : Record) : Point :=
  let text := renderCommand c
  if use_sparse then
    ⟨.vInt c.id, c.toPayload, ⟨none, [("text", sEmb text)]⟩⟩
  else
    ⟨.vInt c.id, c.toPayload, ⟨some (dEmb text), []⟩⟩

/-- Legacy upload loop: no per-record handling, a failure aborts. -/
def ingestLoopLegacy (use_sparse : Bool) (sEmb : String → SparseVec)
    (dEmb : String → List Rat) (failOrc : Record → Bool) (cname : String) :
    List Record → Store → Option Store
  | [], s => some s
  | c :: rest, s =>
      if failOrc c then none
      else ingestLoopLegacy use_sparse sEmb dEmb failOrc cname rest
        (storeUpsert s cname [ingestPointLegacy use_sparse sEmb dEmb c])

/-- Function `create_embeddings_for_commands` of the legacy script. -/
def create_embeddings_for_commands_legacy (s : Store) (use_sparse : Bool)
    (sEmb : String → SparseVec) (dEmb : String → List Rat)
    (failOrc : Record → Bool) (cmds : List Record) : Option Store :=
  match prepCollectionLegacy s use_sparse with
  | none => none
  | some (cname, s1) => ingestLoopLegacy use_sparse sEmb dEmb failOrc cname
      cmds s1

/-! ## Search -/

/-- A similarity-search result as returned by the store client:
the stored payload plus a similarity score. -/
structure SearchResult where
  payload : Payload
  score : Rat
  deriving DecidableEq, Repr

/-- Errors the store client can raise on a search call. -/
inductive StoreErr where
  | collectionNotFound : String → StoreErr
  | storeUnavailable : String → StoreErr
  deriving DecidableEq, Repr

/-- The query vector handed to `client.search`: a dense vector, or a named
sparse vector with an optional dummy dense vector alongside it. -/
inductive QueryVec where
  | dense : List Rat → QueryVec
  | sparse : Option (List Rat) → String → SparseVec → QueryVec
  deriving DecidableEq, Repr

/-- Result post-processing shared verbatim by both search functions
(`psadt_fastembed_cloud_fixed.py` lines 299–307,
`use_existing_collection.py` lines 202–210):
`command = result.payload; command["score"] = result.score`. -/
def process_search_results (rs : List SearchResult) : List Payload :=
  rs.map fun r => dictSet r.payload "score" (.vRat r.score)

/-- Function `search_psadt_commands` of the fixed script (lines 223–310).
The store
search itself is the oracle `searchFn`; embedding entry points are
parameters (`dEmb` dense, `sQEmb` sparse `query_embed`).  Mode resolution
follows lines 253–274: with a sparse request, fall through to the
`_new` collection, and otherwise drop to dense for this call; since the
probe never raises, the outer `except` branch (`return []`) is unreachable.
Re-embedding after fallback is observationally the embedding for the
resolved mode because embedding is pure.  Errors raised by the store search
are caught and turned into `[]` (lines 308–310). -/
def search_psadt_commands (s : Store)
    (searchFn : String → QueryVec → Nat → Except StoreErr (List SearchResult))
    (dEmb : String → List Rat) (sQEmb : String → SparseVec)
    (query : String) (use_sparse : Bool) (limit : Nat) : List Payload :=
  let cname := COMMANDS_COLLECTION
  let r : String × Bool :=
    if use_sparse then
      if supports_sparse_vectors s cname then (cname, true)
      else if supports_sparse_vectors s (cname ++ "_new") then
        (cname ++ "_new", true)
      else (cname, false)
    else (cname, false)
  let q : QueryVec :=
    if r.2 then .sparse (some [0]) "text" (sQEmb query)
    else .dense (dEmb query)
  match searchFn r.1 q limit with
  | .error _ => []
  | .ok rs => process_search_results rs

/-- Whether the fixed search's sparse→dense fallback branch is taken
(lines 262–271): a sparse request with no sparse-capable collection under
either name.  This flag is computed here as a ghost observation; the
function's return value does not carry it. -/
def searchFallbackOccurred (s : Store) (use_sparse : Bool) : Bool :=
  use_sparse && !supports_sparse_vectors s COMMANDS_COLLECTION &&
    !supports_sparse_vectors s (COMMANDS_COLLECTION ++ "_new")

/-- First sparse field name of a collection
(`next(iter(sparse_vectors.keys()))`). -/
def firstSparseField (c : Collection) : Option String :=
  c.config.sparseFields.head?

/-- Function `search_commands` of `use_existing_collection.py`
(lines 144–213):
the initial `get_collection` is not wrapped in a `try`, so a missing
collection propagates the exception (`none`); a collection without a sparse
field prints an error and returns `[]`; the query is embedded with
`query_embed` and searched with `query_vector=None`; search errors are
caught and turned into `[]`. -/
def search_commands (s : Store) (cname : String)
    (searchFn : String → QueryVec → Nat → Except StoreErr (List SearchResult))
    (sQEmb : String → SparseVec) (query : String) (limit : Nat) :
    Option (List Payload) :=
  match getCollection s cname with
  | none => none
  | some c =>
      match firstSparseField c with
      | none => some []
      | some f =>
          match searchFn cname (.sparse none f (sQEmb query)) limit with
          | .error _ => some []
          | .ok rs => some (process_search_results rs)

/-- Function `add_to_existing_collection` of `use_existing_collection.py`
(lines 60–142): exits when the collection is missing or has no sparse
field (`none`); otherwise builds one point per command with `vector=None`
and the collection's first sparse field, embedding the rendered text with
the corpus entry point, and upserts them in one call. -/
def add_to_existing_collection (s : Store) (cname : String)
    (sEmb : String → SparseVec) (cmds : List Record) : Option Store :=
  match getCollection s cname with
  | none => none
  | some c =>
      match firstSparseField c with
      | none => none
      | some f =>
          let points := cmds.map fun cmd =>
            (⟨.vInt cmd.id, cmd.toPayload,
              ⟨none, [(f, sEmb (renderCommand cmd))]⟩⟩ : Point)
          some (if points.isEmpty then s else storeUpsert s cname points)

/-! ## Batch-ingestion CLI (`scripts/generate_embeddings.py`, `main`,
lines 99–151)

Items are processed in batches of `batch_size`; each item's text
representation is embedded (the renderer `create_text_representation`
composed with the model's corpus embedding is abstracted as a function of
the item, since the claims do not depend on the rendered text itself), and
a point is built with `id=item.get('id', i + j)` where `i` is the batch
start index and `j` the offset inside the batch. -/

/-- Python `item.get('id', pos)`: the item's own id value if present, else
the zero-based global position. -/
def itemIdVal (item : Payload) (pos : Nat) : Val :=
  match dictGet item "id" with
  | some v => v
  | none => .vInt pos

/-- The point built for one item at global position `pos`
(lines 112–141). -/
def genPoint (sparse : Bool) (sEmb : Payload → SparseVec)
    (dEmb : Payload → List Rat) (pos : Nat) (item : Payload) : Point :=
  if sparse then ⟨itemIdVal item pos, item, ⟨none, [("text", sEmb item)]⟩⟩
  else ⟨itemIdVal item pos, item, ⟨some (dEmb item), []⟩⟩

/-- Points of one batch starting at global position `start`
(`for j, (item, embedding) in enumerate(zip(batch, batch_embeddings))`). -/
def genPoints (sparse : Bool) (sEmb : Payload → SparseVec)
    (dEmb : Payload → List Rat) : Nat → List Payload → List Point
  | _, [] => []
  | start, it :: rest =>
      genPoint sparse sEmb dEmb start it ::
        genPoints sparse sEmb dEmb (start + 1) rest

/-- The batched main loop (`for i in range(0, len(items), batch_size)`):
each batch's points are upserted into the target collection in one call.
`batch_size = 0` raises in Python (`range` with zero step); the model
treats it like 1 and theorems are stated for positive sizes. -/
def genRun (sparse : Bool) (sEmb : Payload → SparseVec)
    (dEmb : Payload → List Rat) (bs : Nat) (cname : String) :
    List Payload → Nat → Store → Store
  | [], _, s => s
  | it :: rest, start, s =>
      genRun sparse sEmb dEmb bs cname (rest.drop (bs - 1))
        (start + (it :: rest.take (bs - 1)).length)
        (storeUpsert s cname
          (genPoints sparse sEmb dEmb start (it :: rest.take (bs - 1))))
termination_by items _ _ => items.length
decreasing_by
  simp only [List.length_drop, List.length_cons]
  omega

/-- The flat sequence of points the run upserts, in upload order. -/
def genAllPoints (sparse : Bool) (sEmb : Payload → SparseVec)
    (dEmb : Payload → List Rat) (bs : Nat) :
    List Payload → Nat → List Point
  | [], _ => []
  | it :: rest, start =>
      genPoints sparse sEmb dEmb start (it :: rest.take (bs - 1)) ++
        genAllPoints sparse sEmb dEmb bs (rest.drop (bs - 1))
          (start + (it :: rest.take (bs - 1)).length)
termination_by items _ => items.length
decreasing_by
  simp only [List.length_drop, List.length_cons]
  omega

/-! ## Dictionary lemmas -/

theorem dictGet_dictSet_same (d : Payload) (k : String) (v : Val) :
    dictGet (dictSet d k v) k = some v := by
  induction d with
  | nil => simp [dictSet, dictGet]
  | cons kv rest ih =>
      obtain ⟨k', v'⟩ := kv
      by_cases h : k' = k <;> simp [dictSet, dictGet, h, ih]

theorem dictGet_dictSet_ne (d : Payload) (k j : String) (v : Val)
    (h : j ≠ k) :
    dictGet (dictSet d k v) j = dictGet d j := by
  have hkj : ¬(k = j) := fun hh => h hh.symm
  induction d with
  | nil => simp [dictSet, dictGet, hkj]
  | cons kv rest ih =>
      obtain ⟨k', v'⟩ := kv
      by_cases h1 : k' = k
      · subst h1
        simp [dictSet, dictGet, hkj]
      · by_cases h2 : k' = j <;> simp [dictSet, dictGet, h1, h2, h, ih]

/-! ## Store lemmas -/

theorem getCollection_setCollection_same (s : Store) (n : String)
    (c : Collection) : getCollection (setCollection s n c) n = some c := by
  induction s with
  | nil => simp [setCollection, getCollection]
  | cons nc rest ih =>
      obtain ⟨n', c'⟩ := nc
      by_cases h : n' = n <;> simp [setCollection, getCollection, h, ih]

theorem getCollection_setCollection_ne (s : Store) (n m : String)
    (c : Collection) (h : m ≠ n) :
    getCollection (setCollection s n c) m = getCollection s m := by
  have hnm : ¬(n = m) := fun hh => h hh.symm
  induction s with
  | nil => simp [setCollection, getCollection, hnm]
  | cons nc rest ih =>
      obtain ⟨n', c'⟩ := nc
      by_cases h1 : n' = n
      · subst h1
        simp [setCollection, getCollection, hnm]
      · by_cases h2 : n' = m <;>
          simp [setCollection, getCollection, h1, h2, h, ih]

theorem setCollection_self (s : Store) (n : String) (c : Collection)
    (h : getCollection s n = some c) : setCollection s n c = s := by
  induction s with
  | nil => simp [getCollection] at h
  | cons nc rest ih =>
      obtain ⟨n', c'⟩ := nc
      by_cases h1 : n' = n
      · subst h1
        simp [getCollection] at h
        simp [setCollection, h]
      · simp [getCollection, h1] at h
        simp [setCollection, h1, ih h]

theorem setCollection_setCollection (s : Store) (n : String)
    (a b : Collection) :
    setCollection (setCollection s n a) n b = setCollection s n b := by
  induction s with
  | nil => simp [setCollection]
  | cons nc rest ih =>
      obtain ⟨n', c'⟩ := nc
      by_cases h : n' = n <;> simp [setCollection, h, ih]

theorem getCollection_append_left (s t : Store) (n : String) (c : Collection)
    (h : getCollection s n = some c) : getCollection (s ++ t) n = some c := by
  induction s with
  | nil => simp [getCollection] at h
  | cons nc rest ih =>
      obtain ⟨n', c'⟩ := nc
      by_cases h1 : n' = n
      · simp [getCollection, h1] at h ⊢
        exact h
      · simp [getCollection, h1] at h ⊢
        exact ih h

theorem getCollection_append_of_none (s t : Store) (n : String)
    (h : getCollection s n = none) :
    getCollection (s ++ t) n = getCollection t n := by
  induction s with
  | nil => simp
  | cons nc rest ih =>
      obtain ⟨n', c'⟩ := nc
      by_cases h1 : n' = n
      · simp [getCollection, h1] at h
      · simp [getCollection, h1] at h ⊢
        exact ih h

theorem setCollection_append_fresh (s : Store) (n : String)
    (c c' : Collection) (h : getCollection s n = none) :
    setCollection (s ++ [(n, c)]) n c' = s ++ [(n, c')] := by
  induction s with
  | nil => simp [setCollection]
  | cons nc rest ih =>
      obtain ⟨n', c₀⟩ := nc
      by_cases h1 : n' = n
      · simp [getCollection, h1] at h
      · simp [getCollection, h1] at h
        simp [setCollection, h1, ih h]

theorem upsertPoints_cons (ps : List Point) (p : Point) (new : List Point) :
    upsertPoints ps (p :: new) = upsertPoints (upsertPoint ps p) new := rfl

theorem upsertPoints_nil (ps : List Point) : upsertPoints ps [] = ps := rfl

/-! ## Claim C2: capability probe on a missing collection -/

/-- C2 counterexample: for the empty store, the collection `"missing"` does
not exist, yet `supports_sparse_vectors` reports `false` instead of failing:
the retrieval failure is swallowed by the `except Exception: pass` and not
surfaced as `CollectionNotFound`. -/
theorem supports_sparse_missing_counterexample :
    getCollection [] "missing" = none ∧
      supports_sparse_vectors [] "missing" = false := by
  exact ⟨rfl, rfl⟩

/-- C2 (amended): the probe is total and never surfaces an error: it returns
`true` exactly when the collection exists and its configuration has a
non-empty sparse-vector mapping, and `false` in every other case — in
particular for a collection that does not exist. -/
theorem supports_sparse_vectors_spec (s : Store) (n : String) :
    supports_sparse_vectors s n = true ↔
      ∃ c, getCollection s n = some c ∧ c.config.sparseFields ≠ [] := by
  unfold supports_sparse_vectors
  cases h : getCollection s n with
  | none => simp
  | some c => simp [List.isEmpty_iff]

/-! ## Claim C9: result payload mapping -/

/-- C9 counterexample: a stored payload that already contains a field named
`"score"` (here `42`) does not keep its original value — the attached
similarity score (here `7`) overwrites it in the returned record. -/
theorem score_overwrite_counterexample :
    process_search_results
        [⟨[("name", .vStr "A"), ("score", .vInt 42)], 7⟩] =
      [[("name", .vStr "A"), ("score", .vRat 7)]] ∧
    dictGet [("name", Val.vStr "A"), ("score", Val.vInt 42)] "score" =
      some (.vInt 42) ∧
    Val.vRat 7 ≠ Val.vInt 42 := by
  refine ⟨by decide, by decide, by decide⟩

/-- C9 (amended): each result maps to its stored payload with the field
`"score"` set to the result's similarity score — every payload field other
than `"score"` is preserved verbatim, but a pre-existing `"score"` field is
overwritten — and the sequence keeps the store's order without re-sorting
(the i-th returned record comes from the i-th store result). -/
theorem search_results_mapping (rs : List SearchResult) (i : Nat) (k : String)
    (hk : k ≠ "score") :
    (process_search_results rs).length = rs.length ∧
    ((process_search_results rs)[i]?.map fun d => dictGet d k) =
      (rs[i]?.map fun r => dictGet r.payload k) ∧
    ((process_search_results rs)[i]?.map fun d => dictGet d "score") =
      (rs[i]?.map fun r => some (Val.vRat r.score)) := by
  unfold process_search_results
  refine ⟨by simp, ?_, ?_⟩
  · rw [List.getElem?_map]
    cases rs[i]? with
    | none => rfl
    | some r => simp [dictGet_dictSet_ne _ _ _ _ hk]
  · rw [List.getElem?_map]
    cases rs[i]? with
    | none => rfl
    | some r => simp [dictGet_dictSet_same]

/-- C9 witness: the mapping theorem applied at a concrete one-result list
and the key `"name"`. -/
theorem search_results_mapping_witness :
    (process_search_results [⟨[("name", Val.vStr "A")], 2⟩]).length =
        [(⟨[("name", Val.vStr "A")], 2⟩ : SearchResult)].length ∧
    ((process_search_results [⟨[("name", Val.vStr "A")], 2⟩])[0]?.map
        fun d => dictGet d "name") =
      ([(⟨[("name", Val.vStr "A")], 2⟩ : SearchResult)][0]?.map
        fun r => dictGet r.payload "name") ∧
    ((process_search_results [⟨[("name", Val.vStr "A")], 2⟩])[0]?.map
        fun d => dictGet d "score") =
      ([(⟨[("name", Val.vStr "A")], 2⟩ : SearchResult)][0]?.map
        fun r => some (Val.vRat r.score)) :=
  search_results_mapping [⟨[("name", Val.vStr "A")], 2⟩] 0 "name" (by decide)

/-! ## Claim C6: errors during search -/

/-- C6 counterexample: a search call during which the store raises
(`StoreUnavailable`) returns exactly the same value — the empty list — as a
successful search with zero hits: the error is not fatal to the call's
result, and no error kind is surfaced to the caller. -/
theorem search_error_counterexample :
    search_psadt_commands []
        (fun _ _ _ => .error (.storeUnavailable "timeout"))
        (fun _ => [0]) (fun _ => ⟨[], []⟩) "q" false 3 =
      search_psadt_commands [] (fun _ _ _ => .ok [])
        (fun _ => [0]) (fun _ => ⟨[], []⟩) "q" false 3 := by
  rfl

/-- C6 (amended): every store error raised during the search request is
caught inside the call and converted into an empty result list,
indistinguishable from a successful search with no hits; the error kind is
not part of the returned value (it is only printed).  In
`search_commands`, a missing collection does propagate (the initial
`get_collection` is outside any `try`), but once the collection exists,
search errors likewise become `[]`. -/
theorem search_errors_swallowed (s : Store) (dEmb : String → List Rat)
    (sQEmb : String → SparseVec) (q : String) (us : Bool) (l : Nat)
    (e : StoreErr) :
    search_psadt_commands s (fun _ _ _ => .error e) dEmb sQEmb q us l = [] ∧
    (∀ n, search_commands s n (fun _ _ _ => .error e) sQEmb q l =
      (getCollection s n).map fun _ => ([] : List Payload)) := by
  constructor
  · unfold search_psadt_commands
    rfl
  · intro n
    unfold search_commands
    cases getCollection s n with
    | none => rfl
    | some c =>
        cases h : firstSparseField c with
        | none => simp [h]
        | some f => simp [h]

/-! ## Claim C1: sparse→dense fallback observability -/

/-- C1 counterexample: the same search call, against a store where the
collection supports sparse vectors (no fallback) and against an empty store
(fallback to dense), returns exactly the same value when the store search
yields the same hits — the returned result carries no `usedMode` or
`fallbackOccurred` indicator, so the caller cannot distinguish a degraded
dense search from a genuine sparse search. -/
theorem fallback_unobservable_counterexample :
    searchFallbackOccurred
        [(COMMANDS_COLLECTION, ⟨⟨1, .dot, ["text"]⟩, []⟩)] true = false ∧
    searchFallbackOccurred [] true = true ∧
    search_psadt_commands
        [(COMMANDS_COLLECTION, ⟨⟨1, .dot, ["text"]⟩, []⟩)]
        (fun _ _ _ => .ok [⟨[("name", .vStr "A")], 1⟩])
        (fun _ => [0]) (fun _ => ⟨[1], [1]⟩) "q" true 3 =
      search_psadt_commands []
        (fun _ _ _ => .ok [⟨[("name", .vStr "A")], 1⟩])
        (fun _ => [0]) (fun _ => ⟨[1], [1]⟩) "q" true 3 := by
  refine ⟨by decide, by decide, by decide⟩

/-- C1 (amended): when a Sparse-mode search finds no sparse-capable
collection under either name, the call falls back to Dense mode for that
call only — it behaves exactly like the same call issued in Dense mode
(dense query embedding, dense search against `"psadt_commands"`) — and the
fallback is signalled only by a printed warning: the returned result value
carries no fallback indicator (the ghost flag `searchFallbackOccurred` is
computed from the inputs, not returned). -/
theorem sparse_fallback_behaves_dense (s : Store)
    (searchFn : String → QueryVec → Nat → Except StoreErr (List SearchResult))
    (dEmb : String → List Rat) (sQEmb : String → SparseVec)
    (q : String) (l : Nat)
    (h1 : supports_sparse_vectors s COMMANDS_COLLECTION = false)
    (h2 : supports_sparse_vectors s (COMMANDS_COLLECTION ++ "_new") = false) :
    searchFallbackOccurred s true = true ∧
    search_psadt_commands s searchFn dEmb sQEmb q true l =
      search_psadt_commands s searchFn dEmb sQEmb q false l := by
  constructor
  · simp [searchFallbackOccurred, h1, h2]
  · unfold search_psadt_commands
    simp [h1, h2]

/-- C1 witness: the fallback theorem applied at the empty store. -/
theorem sparse_fallback_behaves_dense_witness :
    searchFallbackOccurred [] true = true ∧
    search_psadt_commands [] (fun _ _ _ => .ok [])
        (fun _ => [0]) (fun _ => ⟨[1], [1]⟩) "close dialog" true 3 =
      search_psadt_commands [] (fun _ _ _ => .ok [])
        (fun _ => [0]) (fun _ => ⟨[1], [1]⟩) "close dialog" false 3 :=
  sparse_fallback_behaves_dense [] (fun _ _ _ => .ok [])
    (fun _ => [0]) (fun _ => ⟨[1], [1]⟩) "close dialog" 3 (by decide) (by decide)

/-! ## Ingestion composition lemmas -/

/-- The fixed per-record loop over a present collection: failing records are
skipped and every non-failing record contributes its point, in order. -/
theorem ingestLoopFixed_eq (us ce ss : Bool) (sEmb : String → SparseVec)
    (dEmb : String → List Rat) (failOrc : Record → Bool) (cname : String) :
    ∀ (cmds : List Record) (s : Store) (c : Collection),
      getCollection s cname = some c →
      ingestLoopFixed us ce ss sEmb dEmb failOrc cname cmds s =
        setCollection s cname ⟨c.config,
          upsertPoints c.points ((cmds.filter fun r => !failOrc r).map
            (ingestPointFixed us ce ss sEmb dEmb))⟩ := by
  intro cmds
  induction cmds with
  | nil =>
      intro s c h
      simp [ingestLoopFixed, upsertPoints_nil, setCollection_self s cname c h]
  | cons cmd rest ih =>
      intro s c h
      by_cases hf : failOrc cmd
      · rw [ingestLoopFixed]
        simp only [hf, if_true]
        rw [ih s c h]
        simp [List.filter_cons, hf]
      · rw [ingestLoopFixed]
        have hs2 : (if failOrc cmd = true then s
            else storeUpsert s cname
              [ingestPointFixed us ce ss sEmb dEmb cmd]) =
            setCollection s cname ⟨c.config,
              upsertPoint c.points (ingestPointFixed us ce ss sEmb dEmb cmd)⟩ := by
          simp [hf, storeUpsert, h, upsertPoints, List.foldl]
        rw [hs2, ih _ _ (getCollection_setCollection_same s cname _),
          setCollection_setCollection]
        simp [List.filter_cons, hf, upsertPoints_cons]

/-! ## Claim C4: partial-failure semantics of ingestion -/

/-- Five sample records (record ids 1–5) for the partial-failure scenario. -/
def sampleCmds : List Record :=
  [⟨1, "c", "s", "x"⟩, ⟨2, "c", "s", "x"⟩, ⟨3, "c", "s", "x"⟩,
   ⟨4, "c", "s", "x"⟩, ⟨5, "c", "s", "x"⟩]

/-- C4 (amended): a single record's embedding or upsert failure does not
abort the batch — the final collection state contains exactly the points of
the records that did not fail, in order — but ingestion returns no report:
the Python function returns `None` (here the `Unit` component), carrying no
success or failure counts. -/
theorem ingest_partial_failure (s : Store) (us : Bool)
    (sEmb : String → SparseVec) (dEmb : String → List Rat)
    (failOrc : Record → Bool) (cmds : List Record)
    (cname : String) (ce ss : Bool) (s1 : Store) (c : Collection)
    (hprep : prepCollectionFixed s us = some (cname, ce, ss, s1))
    (hc : getCollection s1 cname = some c) :
    create_embeddings_for_commands s us sEmb dEmb failOrc cmds =
      some (setCollection s1 cname ⟨c.config,
        upsertPoints c.points ((cmds.filter fun r => !failOrc r).map
          (ingestPointFixed us ce ss sEmb dEmb))⟩, ()) := by
  unfold create_embeddings_for_commands
  rw [hprep]
  simp only [Option.map_some']
  rw [ingestLoopFixed_eq us ce ss sEmb dEmb failOrc cname cmds s1 c hc]

/-- C4 witness: the partial-failure theorem applied at the empty store in
sparse mode with the five sample records and record 3 failing. -/
theorem ingest_partial_failure_witness :
    create_embeddings_for_commands [] true (fun _ => ⟨[1], [1]⟩)
        (fun _ => [1]) (fun r => decide (r.id = 3)) sampleCmds =
      some (setCollection [(COMMANDS_COLLECTION, ⟨sparseCreateConfig, []⟩)]
        COMMANDS_COLLECTION ⟨sparseCreateConfig,
        upsertPoints ([] : List Point)
          ((sampleCmds.filter fun r => !decide (r.id = 3)).map
            (ingestPointFixed true false false (fun _ => ⟨[1], [1]⟩)
              (fun _ => [1])))⟩, ()) :=
  ingest_partial_failure [] true (fun _ => ⟨[1], [1]⟩) (fun _ => [1])
    (fun r => decide (r.id = 3)) sampleCmds COMMANDS_COLLECTION false false
    [(COMMANDS_COLLECTION, ⟨sparseCreateConfig, []⟩)]
    ⟨sparseCreateConfig, []⟩ (by decide) (by decide)

/-- C4 counterexample: ingesting the five sample records with only record 3
failing leaves four points in the collection, while ingesting them with
every record failing leaves zero points — yet the two calls return exactly
the same value (`None`), so the caller cannot distinguish partial failure
from total failure from what ingestion returns: no report with counts or
failing record ids is produced. -/
theorem ingest_no_report_counterexample :
    (create_embeddings_for_commands [] true (fun _ => ⟨[1], [1]⟩)
        (fun _ => [1]) (fun r => decide (r.id = 3)) sampleCmds).map
        Prod.snd =
      (create_embeddings_for_commands [] true (fun _ => ⟨[1], [1]⟩)
        (fun _ => [1]) (fun _ => true) sampleCmds).map Prod.snd ∧
    (create_embeddings_for_commands [] true (fun _ => ⟨[1], [1]⟩)
        (fun _ => [1]) (fun r => decide (r.id = 3)) sampleCmds).map
        (fun r => (getCollection r.1 COMMANDS_COLLECTION).map
          fun c => c.points.length) = some (some 4) ∧
    (create_embeddings_for_commands [] true (fun _ => ⟨[1], [1]⟩)
        (fun _ => [1]) (fun _ => true) sampleCmds).map
        (fun r => (getCollection r.1 COMMANDS_COLLECTION).map
          fun c => c.points.length) = some (some 0) := by
  refine ⟨by decide, by decide, by decide⟩

/-! ## Claim C5: ingestion into an absent collection -/

/-- C5 (amended): when the target collection is absent, ingestion creates it
with the vector configuration matching the requested mode (dense: size 384
with cosine distance; sparse: the named sparse slot `"text"`, alongside a
dummy dense slot of size 1) and uploads one point per record — but it
returns no `{success, failed}` report: the Python return value is `None`. -/
theorem ingest_absent_creates (s : Store) (cmds : List Record)
    (sEmb : String → SparseVec) (dEmb : String → List Rat)
    (h : getCollection s COMMANDS_COLLECTION = none) :
    create_embeddings_for_commands s false sEmb dEmb (fun _ => false) cmds =
      some (s ++ [(COMMANDS_COLLECTION, ⟨denseCreateConfig,
        upsertPoints [] (cmds.map
          (ingestPointFixed false false false sEmb dEmb))⟩)], ()) ∧
    create_embeddings_for_commands s true sEmb dEmb (fun _ => false) cmds =
      some (s ++ [(COMMANDS_COLLECTION, ⟨sparseCreateConfig,
        upsertPoints [] (cmds.map
          (ingestPointFixed true false false sEmb dEmb))⟩)], ()) ∧
    denseCreateConfig = ⟨384, .cosine, []⟩ ∧
    sparseCreateConfig.sparseFields = ["text"] := by
  have hprep : ∀ cfg : CollectionConfig,
      createCollection s COMMANDS_COLLECTION cfg =
        some (s ++ [(COMMANDS_COLLECTION, ⟨cfg, []⟩)]) := by
    intro cfg
    simp [createCollection, h]
  have hget : ∀ cfg : CollectionConfig,
      getCollection (s ++ [(COMMANDS_COLLECTION, ⟨cfg, []⟩)])
        COMMANDS_COLLECTION = some ⟨cfg, []⟩ := by
    intro cfg
    rw [getCollection_append_of_none _ _ _ h]
    simp [getCollection]
  refine ⟨?_, ?_, rfl, rfl⟩
  · unfold create_embeddings_for_commands prepCollectionFixed
    simp only [h, Bool.false_eq_true, if_false, hprep, Option.map_some']
    rw [ingestLoopFixed_eq false false false sEmb dEmb (fun _ => false)
      COMMANDS_COLLECTION cmds _ _ (hget denseCreateConfig)]
    rw [setCollection_append_fresh _ _ _ _ h]
    simp
  · unfold create_embeddings_for_commands prepCollectionFixed
    simp only [h, if_true, hprep, Option.map_some']
    rw [ingestLoopFixed_eq true false false sEmb dEmb (fun _ => false)
      COMMANDS_COLLECTION cmds _ _ (hget sparseCreateConfig)]
    rw [setCollection_append_fresh _ _ _ _ h]
    simp

/-- C5 witness: the creation theorem applied at the empty store with one
record. -/
theorem ingest_absent_creates_witness :
    create_embeddings_for_commands [] false (fun _ => ⟨[1], [1]⟩)
        (fun _ => [1]) (fun _ => false) [⟨1, "a", "b", "c"⟩] =
      some ([] ++ [(COMMANDS_COLLECTION, ⟨denseCreateConfig,
        upsertPoints [] ([⟨1, "a", "b", "c"⟩].map
          (ingestPointFixed false false false (fun _ => ⟨[1], [1]⟩)
            (fun _ => [1])))⟩)], ()) ∧
    create_embeddings_for_commands [] true (fun _ => ⟨[1], [1]⟩)
        (fun _ => [1]) (fun _ => false) [⟨1, "a", "b", "c"⟩] =
      some ([] ++ [(COMMANDS_COLLECTION, ⟨sparseCreateConfig,
        upsertPoints [] ([⟨1, "a", "b", "c"⟩].map
          (ingestPointFixed true false false (fun _ => ⟨[1], [1]⟩)
            (fun _ => [1])))⟩)], ()) ∧
    denseCreateConfig = ⟨384, .cosine, []⟩ ∧
    sparseCreateConfig.sparseFields = ["text"] :=
  ingest_absent_creates [] [⟨1, "a", "b", "c"⟩] (fun _ => ⟨[1], [1]⟩)
    (fun _ => [1]) (by decide)

/-- C5 counterexample: ingesting one record into an absent collection in
Dense mode uploads one point when it succeeds and zero when it fails, yet
both calls return the same value (`None`) — there is no
`{success:1, failed:0}` report in the returned value. -/
theorem ingest_absent_no_report_counterexample :
    (create_embeddings_for_commands [] false (fun _ => ⟨[1], [1]⟩)
        (fun _ => [1]) (fun _ => false) [⟨1, "a", "b", "c"⟩]).map
        Prod.snd =
      (create_embeddings_for_commands [] false (fun _ => ⟨[1], [1]⟩)
        (fun _ => [1]) (fun _ => true) [⟨1, "a", "b", "c"⟩]).map Prod.snd ∧
    (create_embeddings_for_commands [] false (fun _ => ⟨[1], [1]⟩)
        (fun _ => [1]) (fun _ => false) [⟨1, "a", "b", "c"⟩]).map
        (fun r => (getCollection r.1 COMMANDS_COLLECTION).map
          fun c => c.points.length) = some (some 1) ∧
    (create_embeddings_for_commands [] false (fun _ => ⟨[1], [1]⟩)
        (fun _ => [1]) (fun _ => true) [⟨1, "a", "b", "c"⟩]).map
        (fun r => (getCollection r.1 COMMANDS_COLLECTION).map
          fun c => c.points.length) = some (some 0) := by
  refine ⟨by decide, by decide, by decide⟩

/-! ## Claim C3: capability mismatch on ingestion -/

/-- C3 counterexample: the legacy script's ingestion
(`psadt_fastembed_cloud.py`), run in Sparse mode against an existing
collection that lacks sparse support (which also holds a stored point),
deletes and recreates the collection: afterwards the collection holds no
points — the existing collection's stored points are destroyed, which the
claim rules out. -/
theorem legacy_delete_counterexample :
    supports_sparse_vectors
        [(COMMANDS_COLLECTION, ⟨⟨384, .cosine, []⟩,
          [⟨.vInt 7, [("k", .vStr "v")], ⟨some [1], []⟩⟩]⟩)]
        COMMANDS_COLLECTION = false ∧
    (create_embeddings_for_commands_legacy
        [(COMMANDS_COLLECTION, ⟨⟨384, .cosine, []⟩,
          [⟨.vInt 7, [("k", .vStr "v")], ⟨some [1], []⟩⟩]⟩)]
        true (fun _ => ⟨[1], [1]⟩) (fun _ => [1]) (fun _ => false) []).map
      (fun st => (getCollection st COMMANDS_COLLECTION).map
        fun c => c.points) = some (some []) := by
  refine ⟨by decide, by decide⟩

/-- C3 (amended): the fixed script's ingestion, on a sparse-mode capability
mismatch (collection present without sparse support), derives the
disambiguated name `"psadt_commands_new"`, creates it with the sparse
configuration, and writes all (sparse-mode) points there; the pre-existing
collection — its stored points included — is left untouched.  The legacy
script instead deletes and recreates the collection (see the
counterexample), so the repository exhibits both the rename policy and a
destructive recreate rather than a single documented policy. -/
theorem fixed_mismatch_renames (s : Store) (c0 : Collection)
    (sEmb : String → SparseVec) (dEmb : String → List Rat)
    (failOrc : Record → Bool) (cmds : List Record)
    (h : getCollection s COMMANDS_COLLECTION = some c0)
    (hns : supports_sparse_vectors s COMMANDS_COLLECTION = false)
    (hnew : getCollection s (COMMANDS_COLLECTION ++ "_new") = none) :
    create_embeddings_for_commands s true sEmb dEmb failOrc cmds =
      some (s ++ [(COMMANDS_COLLECTION ++ "_new", ⟨sparseCreateConfig,
        upsertPoints [] ((cmds.filter fun r => !failOrc r).map
          (ingestPointFixed true false false sEmb dEmb))⟩)], ()) ∧
    getCollection
      (s ++ [(COMMANDS_COLLECTION ++ "_new", ⟨sparseCreateConfig,
        upsertPoints [] ((cmds.filter fun r => !failOrc r).map
          (ingestPointFixed true false false sEmb dEmb))⟩)])
      COMMANDS_COLLECTION = some c0 := by
  have hget : getCollection
      (s ++ [(COMMANDS_COLLECTION ++ "_new", ⟨sparseCreateConfig, []⟩)])
      (COMMANDS_COLLECTION ++ "_new") = some ⟨sparseCreateConfig, []⟩ := by
    rw [getCollection_append_of_none _ _ _ hnew]
    simp [getCollection]
  constructor
  · unfold create_embeddings_for_commands prepCollectionFixed
    simp only [h, if_true, hns, Bool.false_eq_true, if_false]
    rw [show createCollection s (COMMANDS_COLLECTION ++ "_new")
          sparseCreateConfig =
        some (s ++ [(COMMANDS_COLLECTION ++ "_new",
          ⟨sparseCreateConfig, []⟩)]) by simp [createCollection, hnew]]
    simp only [Option.map_some']
    rw [ingestLoopFixed_eq true false false sEmb dEmb failOrc
      (COMMANDS_COLLECTION ++ "_new") cmds _ _ hget]
    rw [setCollection_append_fresh _ _ _ _ hnew]
  · exact getCollection_append_left _ _ _ _ h

/-- C3 witness: the rename theorem applied at a store holding one dense
collection with one stored point and an empty batch. -/
theorem fixed_mismatch_renames_witness :
    create_embeddings_for_commands
        [(COMMANDS_COLLECTION, ⟨⟨384, .cosine, []⟩,
          [⟨.vInt 7, [("k", .vStr "v")], ⟨some [1], []⟩⟩]⟩)]
        true (fun _ => ⟨[1], [1]⟩) (fun _ => [1]) (fun _ => false) [] =
      some ([(COMMANDS_COLLECTION, ⟨⟨384, .cosine, []⟩,
          [⟨.vInt 7, [("k", .vStr "v")], ⟨some [1], []⟩⟩]⟩)] ++
        [(COMMANDS_COLLECTION ++ "_new", ⟨sparseCreateConfig,
          upsertPoints []
            ((([] : List Record).filter fun r => !(fun _ => false) r).map
              (ingestPointFixed true false false (fun _ => ⟨[1], [1]⟩)
                (fun _ => [1])))⟩)], ()) ∧
    getCollection
      ([(COMMANDS_COLLECTION, ⟨⟨384, .cosine, []⟩,
          [⟨.vInt 7, [("k", .vStr "v")], ⟨some [1], []⟩⟩]⟩)] ++
        [(COMMANDS_COLLECTION ++ "_new", ⟨sparseCreateConfig,
          upsertPoints []
            ((([] : List Record).filter fun r => !(fun _ => false) r).map
              (ingestPointFixed true false false (fun _ => ⟨[1], [1]⟩)
                (fun _ => [1])))⟩)])
      COMMANDS_COLLECTION =
      some ⟨⟨384, .cosine, []⟩,
        [⟨.vInt 7, [("k", .vStr "v")], ⟨some [1], []⟩⟩]⟩ :=
  fixed_mismatch_renames
    [(COMMANDS_COLLECTION, ⟨⟨384, .cosine, []⟩,
      [⟨.vInt 7, [("k", .vStr "v")], ⟨some [1], []⟩⟩]⟩)]
    ⟨⟨384, .cosine, []⟩, [⟨.vInt 7, [("k", .vStr "v")], ⟨some [1], []⟩⟩]⟩
    (fun _ => ⟨[1], [1]⟩) (fun _ => [1]) (fun _ => false) []
    (by decide) (by decide) (by decide)

/-! ## Claim C7: corpus vs query embedding entry points -/

/-- C7: in sparse mode, ingestion always embeds a record's rendered text
through the corpus entry point (`model.embed`, here `sEmb`), and search
always embeds the query through the query entry point (`model.query_embed`,
here `sQEmb`): every point the fixed ingestion loop builds on a sparse path
carries the corpus embedding of the rendered text,
`add_to_existing_collection` stores corpus embeddings under the collection's
first sparse field, and `search_psadt_commands` issues the query embedded by
the query entry point.  The two entry points may produce different
weightings for the same text, and neither path fails because the other
would have weighted differently: a concrete run with differing entry points
succeeds on both sides. -/
theorem corpus_vs_query_entry_points (s : Store)
    (searchFn : String → QueryVec → Nat → Except StoreErr (List SearchResult))
    (sEmb sQEmb : String → SparseVec) (dEmb : String → List Rat)
    (q : String) (l : Nat) (cmds : List Record)
    (hsupp : supports_sparse_vectors s COMMANDS_COLLECTION = true) :
    (∀ (ce ss : Bool) (c : Record), (!ce || ss) = true →
      ingestPointFixed true ce ss sEmb dEmb c =
        ⟨.vInt c.id, c.toPayload,
          ⟨some [0], [("text", sEmb (renderCommand c))]⟩⟩) ∧
    (∀ (cname : String) (c : Collection) (f : String),
      getCollection s cname = some c → firstSparseField c = some f →
      add_to_existing_collection s cname sEmb cmds =
        some (if (cmds.map fun cmd => (⟨.vInt cmd.id, cmd.toPayload,
              ⟨none, [(f, sEmb (renderCommand cmd))]⟩⟩ : Point)).isEmpty
          then s
          else storeUpsert s cname (cmds.map fun cmd =>
            (⟨.vInt cmd.id, cmd.toPayload,
              ⟨none, [(f, sEmb (renderCommand cmd))]⟩⟩ : Point)))) ∧
    (search_psadt_commands s searchFn dEmb sQEmb q true l =
      match searchFn COMMANDS_COLLECTION
          (.sparse (some [0]) "text" (sQEmb q)) l with
      | .error _ => []
      | .ok rs => process_search_results rs) ∧
    ((⟨[1], [2]⟩ : SparseVec) ≠ ⟨[1], [1]⟩ ∧
      (create_embeddings_for_commands [] true (fun _ => ⟨[1], [2]⟩)
        (fun _ => [1]) (fun _ => false) [⟨1, "a", "b", "c"⟩]).isSome = true ∧
      search_psadt_commands
          [(COMMANDS_COLLECTION, ⟨⟨1, .dot, ["text"]⟩, []⟩)]
          (fun _ _ _ => .ok [⟨[("name", .vStr "A")], 1⟩])
          (fun _ => [1]) (fun _ => ⟨[1], [1]⟩) "t" true 1 =
        [[("name", .vStr "A"), ("score", .vRat 1)]]) := by
  refine ⟨?_, ?_, ?_, by decide, by decide, by decide⟩
  · intro ce ss c hflag
    unfold ingestPointFixed
    simp [hflag]
  · intro cname c f hc hf
    unfold add_to_existing_collection
    simp only [hc, hf]
  · unfold search_psadt_commands
    simp [hsupp]

/-- C7 witness: the entry-point theorem applied at a store holding one
sparse-capable collection. -/
theorem corpus_vs_query_entry_points_witness :
    (∀ (ce ss : Bool) (c : Record), (!ce || ss) = true →
      ingestPointFixed true ce ss (fun _ => (⟨[1], [2]⟩ : SparseVec))
          (fun _ => [1]) c =
        ⟨.vInt c.id, c.toPayload,
          ⟨some [0], [("text", (fun _ => (⟨[1], [2]⟩ : SparseVec))
            (renderCommand c))]⟩⟩) ∧
    (∀ (cname : String) (c : Collection) (f : String),
      getCollection [(COMMANDS_COLLECTION, ⟨⟨1, .dot, ["text"]⟩, []⟩)]
          cname = some c →
      firstSparseField c = some f →
      add_to_existing_collection
          [(COMMANDS_COLLECTION, ⟨⟨1, .dot, ["text"]⟩, []⟩)] cname
          (fun _ => (⟨[1], [2]⟩ : SparseVec)) [⟨1, "a", "b", "c"⟩] =
        some (if ([(⟨1, "a", "b", "c"⟩ : Record)].map fun cmd =>
              (⟨.vInt cmd.id, cmd.toPayload,
                ⟨none, [(f, (fun _ => (⟨[1], [2]⟩ : SparseVec))
                  (renderCommand cmd))]⟩⟩ : Point)).isEmpty
          then [(COMMANDS_COLLECTION, ⟨⟨1, .dot, ["text"]⟩, []⟩)]
          else storeUpsert
            [(COMMANDS_COLLECTION, ⟨⟨1, .dot, ["text"]⟩, []⟩)] cname
            ([(⟨1, "a", "b", "c"⟩ : Record)].map fun cmd =>
              (⟨.vInt cmd.id, cmd.toPayload,
                ⟨none, [(f, (fun _ => (⟨[1], [2]⟩ : SparseVec))
                  (renderCommand cmd))]⟩⟩ : Point)))) ∧
    (search_psadt_commands
        [(COMMANDS_COLLECTION, ⟨⟨1, .dot, ["text"]⟩, []⟩)]
        (fun _ _ _ => .ok []) (fun _ => [1])
        (fun _ => (⟨[1], [1]⟩ : SparseVec)) "t" true 1 =
      match (fun (_ : String) (_ : QueryVec) (_ : Nat) =>
          (.ok [] : Except StoreErr (List SearchResult)))
          COMMANDS_COLLECTION
          (.sparse (some [0]) "text"
            ((fun _ => (⟨[1], [1]⟩ : SparseVec)) "t")) 1 with
      | .error _ => []
      | .ok rs => process_search_results rs) ∧
    ((⟨[1], [2]⟩ : SparseVec) ≠ ⟨[1], [1]⟩ ∧
      (create_embeddings_for_commands [] true (fun _ => ⟨[1], [2]⟩)
        (fun _ => [1]) (fun _ => false) [⟨1, "a", "b", "c"⟩]).isSome = true ∧
      search_psadt_commands
          [(COMMANDS_COLLECTION, ⟨⟨1, .dot, ["text"]⟩, []⟩)]
          (fun _ _ _ => .ok [⟨[("name", .vStr "A")], 1⟩])
          (fun _ => [1]) (fun _ => ⟨[1], [1]⟩) "t" true 1 =
        [[("name", .vStr "A"), ("score", .vRat 1)]]) :=
  corpus_vs_query_entry_points
    [(COMMANDS_COLLECTION, ⟨⟨1, .dot, ["text"]⟩, []⟩)]
    (fun _ _ _ => .ok []) (fun _ => ⟨[1], [2]⟩) (fun _ => ⟨[1], [1]⟩)
    (fun _ => [1]) "t" 1 [⟨1, "a", "b", "c"⟩] (by decide)

/-! ## Claim C8: sparse-vector well-formedness -/

/-- All sparse vectors attached to a point are well-formed. -/
def PointWf (p : Point) : Prop :=
  ∀ fs ∈ p.vec.sparse, SparseVec.wf fs.2

instance (p : Point) : Decidable (PointWf p) := by
  unfold PointWf
  infer_instance

/-- All sparse vectors stored anywhere in the store are well-formed. -/
def StoreWf (s : Store) : Prop :=
  ∀ nc ∈ s, ∀ p ∈ nc.2.points, PointWf p

instance (s : Store) : Decidable (StoreWf s) := by
  unfold StoreWf
  infer_instance

theorem pointsWf_upsertPoint (ps : List Point) (p : Point)
    (hps : ∀ q ∈ ps, PointWf q) (hp : PointWf p) :
    ∀ q ∈ upsertPoint ps p, PointWf q := by
  intro q hq
  unfold upsertPoint at hq
  split at hq
  · rcases List.mem_map.mp hq with ⟨r, hr, hrq⟩
    by_cases hid : r.id = p.id
    · rw [if_pos hid] at hrq
      exact hrq ▸ hp
    · rw [if_neg hid] at hrq
      exact hrq ▸ hps r hr
  · rcases List.mem_append.mp hq with hq | hq
    · exact hps q hq
    · rcases List.mem_singleton.mp hq with rfl
      exact hp

theorem pointsWf_upsertPoints (new : List Point) :
    ∀ (ps : List Point), (∀ q ∈ ps, PointWf q) →
      (∀ q ∈ new, PointWf q) →
      ∀ q ∈ upsertPoints ps new, PointWf q := by
  induction new with
  | nil => exact fun ps hps _ q hq => hps q hq
  | cons p rest ih =>
      intro ps hps hnew q hq
      exact ih (upsertPoint ps p)
        (pointsWf_upsertPoint ps p hps (hnew p (List.mem_cons_self _ _)))
        (fun r hr => hnew r (List.mem_cons_of_mem _ hr)) q hq

theorem storeWf_setCollection (s : Store) (n : String) (c : Collection)
    (hs : StoreWf s) (hc : ∀ p ∈ c.points, PointWf p) :
    StoreWf (setCollection s n c) := by
  induction s with
  | nil =>
      intro nc hnc p hp
      simp [setCollection] at hnc
      subst hnc
      exact hc p hp
  | cons nc0 rest ih =>
      obtain ⟨n0, c0⟩ := nc0
      intro nc hnc p hp
      by_cases h : n0 = n
      · simp only [setCollection, h, if_pos] at hnc
        rcases List.mem_cons.mp hnc with rfl | hnc
        · exact hc p hp
        · exact hs nc (List.mem_cons_of_mem _ hnc) p hp
      · simp only [setCollection, h, if_neg, if_false] at hnc
        rcases List.mem_cons.mp hnc with rfl | hnc
        · exact hs (n0, c0) (List.mem_cons_self _ _) p hp
        · exact ih (fun y hy => hs y (List.mem_cons_of_mem _ hy)) nc hnc p hp

theorem getCollection_mem (s : Store) (n : String) (c : Collection)
    (h : getCollection s n = some c) : (n, c) ∈ s := by
  induction s with
  | nil => simp [getCollection] at h
  | cons nc rest ih =>
      obtain ⟨n0, c0⟩ := nc
      by_cases h1 : n0 = n
      · subst h1
        simp [getCollection] at h
        subst h
        exact List.mem_cons_self _ _
      · simp [getCollection, h1] at h
        exact List.mem_cons_of_mem _ (ih h)

theorem storeWf_storeUpsert (s : Store) (n : String) (new : List Point)
    (hs : StoreWf s) (hnew : ∀ q ∈ new, PointWf q) :
    StoreWf (storeUpsert s n new) := by
  unfold storeUpsert
  cases h : getCollection s n with
  | none => exact hs
  | some c =>
      apply storeWf_setCollection _ _ _ hs
      exact pointsWf_upsertPoints new c.points
        (fun q hq => hs (n, c) (getCollection_mem s n c h) q hq) hnew

theorem storeWf_append_empty (s : Store) (n : String)
    (cfg : CollectionConfig) (hs : StoreWf s) :
    StoreWf (s ++ [(n, ⟨cfg, []⟩)]) := by
  intro nc hnc p hp
  rcases List.mem_append.mp hnc with h | h
  · exact hs nc h p hp
  · rcases List.mem_singleton.mp h with rfl
    simp at hp

theorem storeWf_createCollection (s s2 : Store) (n : String)
    (cfg : CollectionConfig) (hs : StoreWf s)
    (h : createCollection s n cfg = some s2) : StoreWf s2 := by
  unfold createCollection at h
  split at h
  · exact absurd h (by simp)
  · cases h
    exact storeWf_append_empty s n cfg hs

theorem storeWf_prepCollectionFixed (s : Store) (us : Bool)
    (r : String × Bool × Bool × Store) (hs : StoreWf s)
    (h : prepCollectionFixed s us = some r) : StoreWf r.2.2.2 := by
  simp only [prepCollectionFixed] at h
  split at h
  · split at h
    · split at h
      · cases h
        exact hs
      · cases hc : createCollection s (COMMANDS_COLLECTION ++ "_new")
            sparseCreateConfig with
        | none => rw [hc] at h; simp at h
        | some s2 =>
            rw [hc] at h
            simp only [Option.map_some'] at h
            cases h
            exact storeWf_createCollection _ _ _ _ hs hc
    · cases h
      exact hs
  · cases hc : createCollection s COMMANDS_COLLECTION
        (if us = true then sparseCreateConfig else denseCreateConfig) with
    | none => rw [hc] at h; simp at h
    | some s2 =>
        rw [hc] at h
        simp only [Option.map_some'] at h
        cases h
        exact storeWf_createCollection _ _ _ _ hs hc

theorem pointWf_ingestPointFixed (us ce ss : Bool)
    (sEmb : String → SparseVec) (dEmb : String → List Rat) (c : Record)
    (hEmb : ∀ t, (sEmb t).wf) :
    PointWf (ingestPointFixed us ce ss sEmb dEmb c) := by
  unfold ingestPointFixed PointWf
  split
  · intro fs hfs
    rcases List.mem_singleton.mp hfs with rfl
    exact hEmb _
  · intro fs hfs
    simp at hfs

theorem storeWf_ingestLoopFixed (us ce ss : Bool)
    (sEmb : String → SparseVec) (dEmb : String → List Rat)
    (failOrc : Record → Bool) (cname : String)
    (hEmb : ∀ t, (sEmb t).wf) :
    ∀ (cmds : List Record) (s : Store), StoreWf s →
      StoreWf (ingestLoopFixed us ce ss sEmb dEmb failOrc cname cmds s) := by
  intro cmds
  induction cmds with
  | nil =>
      intro s hs
      rw [ingestLoopFixed]
      exact hs
  | cons c rest ih =>
      intro s hs
      rw [ingestLoopFixed]
      apply ih
      by_cases hf : failOrc c
      · simpa [hf] using hs
      · have hw : StoreWf (storeUpsert s cname
            [ingestPointFixed us ce ss sEmb dEmb c]) :=
          storeWf_storeUpsert _ _ _ hs (by
            intro q hq
            rcases List.mem_singleton.mp hq with rfl
            exact pointWf_ingestPointFixed us ce ss sEmb dEmb c hEmb)
        simpa [hf] using hw

/-- C8: every `SparseVector` the workflow constructs — the corpus embedding
stored with each ingested point and the query embedding used by search — is
well-formed provided the embedding provider's outputs are: `indices` and
`values` have identical length, every index is non-negative, and the
indices are pairwise distinct.  The workflow copies `indices`/`values`
verbatim from the embedding, so the invariant carries over to every sparse
vector in the resulting store state. -/
theorem sparse_vectors_wellformed (s : Store) (us : Bool)
    (sEmb sQEmb : String → SparseVec) (dEmb : String → List Rat)
    (failOrc : Record → Bool) (cmds : List Record) (q : String) (st : Store)
    (hEmb : ∀ t, (sEmb t).wf) (hQ : ∀ t, (sQEmb t).wf) (hs : StoreWf s)
    (hrun : create_embeddings_for_commands s us sEmb dEmb failOrc cmds =
      some (st, ())) :
    StoreWf st ∧ (sQEmb q).wf := by
  refine ⟨?_, hQ q⟩
  unfold create_embeddings_for_commands at hrun
  cases hp : prepCollectionFixed s us with
  | none => rw [hp] at hrun; simp at hrun
  | some r =>
      rw [hp] at hrun
      simp only [Option.map_some'] at hrun
      have h1 : StoreWf r.2.2.2 := storeWf_prepCollectionFixed s us r hs hp
      have h2 := storeWf_ingestLoopFixed us r.2.1 r.2.2.1 sEmb dEmb failOrc
        r.1 hEmb cmds r.2.2.2 h1
      have h3 : ingestLoopFixed us r.2.1 r.2.2.1 sEmb dEmb failOrc r.1 cmds
          r.2.2.2 = st := congrArg Prod.fst (Option.some.inj hrun)
      exact h3 ▸ h2

/-- C8 witness: the well-formedness theorem applied at a concrete sparse
run with a well-formed embedder. -/
theorem sparse_vectors_wellformed_witness :
    StoreWf [(COMMANDS_COLLECTION, ⟨sparseCreateConfig,
      [⟨.vInt 1, Record.toPayload ⟨1, "a", "b", "c"⟩,
        ⟨some [0], [("text", ⟨[0, 1], [1, 2]⟩)]⟩⟩]⟩)] ∧
    SparseVec.wf ((fun _ => (⟨[2], [1]⟩ : SparseVec)) "t") :=
  sparse_vectors_wellformed [] true (fun _ => ⟨[0, 1], [1, 2]⟩)
    (fun _ => ⟨[2], [1]⟩) (fun _ => [1]) (fun _ => false)
    [⟨1, "a", "b", "c"⟩] "t"
    [(COMMANDS_COLLECTION, ⟨sparseCreateConfig,
      [⟨.vInt 1, Record.toPayload ⟨1, "a", "b", "c"⟩,
        ⟨some [0], [("text", ⟨[0, 1], [1, 2]⟩)]⟩⟩]⟩)]
    (fun _ => (by decide : SparseVec.wf ⟨[0, 1], [1, 2]⟩))
    (fun _ => (by decide : SparseVec.wf ⟨[2], [1]⟩)) (by decide) (by decide)

/-! ## Claim C10: default point ids in the batch-ingestion CLI -/

theorem upsertPoints_append (ps l1 l2 : List Point) :
    upsertPoints ps (l1 ++ l2) = upsertPoints (upsertPoints ps l1) l2 :=
  List.foldl_append _ _ _ _

theorem genPoints_append (sp : Bool) (sE : Payload → SparseVec)
    (dE : Payload → List Rat) :
    ∀ (a b : List Payload) (start : Nat),
      genPoints sp sE dE start (a ++ b) =
        genPoints sp sE dE start a ++
          genPoints sp sE dE (start + a.length) b := by
  intro a
  induction a with
  | nil => intro b start; simp [genPoints]
  | cons it rest ih =>
      intro b start
      simp only [List.cons_append, genPoints]
      have hab : List.append rest b = rest ++ b := rfl
      rw [hab, ih b (start + 1), List.length_cons]
      have harith : start + 1 + rest.length = start + (rest.length + 1) := by
        omega
      rw [harith]

theorem genAllPoints_eq (sp : Bool) (sE : Payload → SparseVec)
    (dE : Payload → List Rat) (bs : Nat) :
    ∀ (items : List Payload) (start : Nat),
      genAllPoints sp sE dE bs items start = genPoints sp sE dE start items
  | [], start => by
      rw [genAllPoints, genPoints]
  | it :: rest, start => by
      rw [genAllPoints,
        genAllPoints_eq sp sE dE bs (rest.drop (bs - 1))
          (start + (it :: rest.take (bs - 1)).length),
        ← genPoints_append]
      congr 1
      simp
termination_by items _ => items.length
decreasing_by
  simp only [List.length_drop, List.length_cons]
  omega

theorem genRun_eq (sp : Bool) (sE : Payload → SparseVec)
    (dE : Payload → List Rat) (bs : Nat) (cname : String) :
    ∀ (items : List Payload) (start : Nat) (s : Store) (c : Collection),
      getCollection s cname = some c →
      genRun sp sE dE bs cname items start s =
        setCollection s cname ⟨c.config,
          upsertPoints c.points (genAllPoints sp sE dE bs items start)⟩
  | [], start, s, c, h => by
      rw [genRun, genAllPoints, upsertPoints_nil,
        setCollection_self s cname c h]
  | it :: rest, start, s, c, h => by
      rw [genRun]
      have hup : storeUpsert s cname
          (genPoints sp sE dE start (it :: rest.take (bs - 1))) =
          setCollection s cname ⟨c.config, upsertPoints c.points
            (genPoints sp sE dE start (it :: rest.take (bs - 1)))⟩ := by
        simp [storeUpsert, h]
      rw [hup,
        genRun_eq sp sE dE bs cname (rest.drop (bs - 1))
          (start + (it :: rest.take (bs - 1)).length) _ _
          (getCollection_setCollection_same _ _ _),
        setCollection_setCollection, genAllPoints, upsertPoints_append]
termination_by items _ _ _ _ => items.length
decreasing_by
  simp only [List.length_drop, List.length_cons]
  omega

theorem findPoint_cons (a : Point) (l : List Point) (x : Val) :
    findPoint (a :: l) x = if a.id = x then some a else findPoint l x := rfl

theorem findPoint_replace (ps : List Point) (p : Point) (x : Val) :
    findPoint (ps.map fun r => if r.id = p.id then p else r) x =
      if p.id = x then
        (if ps.any (fun r => r.id = p.id) then some p else none)
      else findPoint ps x := by
  induction ps with
  | nil => by_cases hx : p.id = x <;> simp [findPoint, hx]
  | cons a rest ih =>
      simp only [List.map_cons, findPoint_cons, List.any_cons]
      by_cases ha : a.id = p.id
      · simp only [if_pos ha, ha]
        by_cases hx : p.id = x
        · simp [hx]
        · simp [hx, ih]
      · simp only [if_neg ha]
        by_cases hax : a.id = x
        · have hx : ¬(p.id = x) := fun hh => ha (hax.trans hh.symm)
          simp [hax, hx]
        · simp [hax, ha, ih]

theorem findPoint_append_fresh (ps : List Point) (p : Point) (x : Val)
    (hps : ∀ r ∈ ps, ¬(r.id = p.id)) :
    findPoint (ps ++ [p]) x =
      if p.id = x then some p else findPoint ps x := by
  induction ps with
  | nil => simp [findPoint]
  | cons a rest ih =>
      have hap : ¬(a.id = p.id) := hps a (List.mem_cons_self _ _)
      have hrest : ∀ r ∈ rest, ¬(r.id = p.id) :=
        fun r hr => hps r (List.mem_cons_of_mem _ hr)
      by_cases hax : a.id = x
      · have hx : ¬(p.id = x) := fun hh => hap (hax.trans hh.symm)
        simp [findPoint, hax, hx]
      · simp only [List.cons_append, findPoint, hax, if_false]
        exact ih hrest

theorem findPoint_upsertPoint (ps : List Point) (p : Point) (x : Val) :
    findPoint (upsertPoint ps p) x =
      if p.id = x then some p else findPoint ps x := by
  unfold upsertPoint
  by_cases h : ps.any (fun r => r.id = p.id)
  · simp only [h, if_true, findPoint_replace]
  · have h2 : ps.any (fun r => r.id = p.id) = false := by
      simpa using h
    simp only [h2, Bool.false_eq_true, if_false]
    apply findPoint_append_fresh
    intro r hr
    have := List.any_eq_false.mp h2 r hr
    simpa using this

theorem findPoint_upsertPoints (new : List Point) :
    ∀ (acc : List Point) (x : Val),
      findPoint (upsertPoints acc new) x =
        match lastWithId new x with
        | some pt => some pt
        | none => findPoint acc x := by
  induction new with
  | nil => intro acc x; simp [upsertPoints, lastWithId]
  | cons p rest ih =>
      intro acc x
      rw [upsertPoints_cons, ih, lastWithId]
      cases hrest : lastWithId rest x with
      | some pt => simp
      | none =>
          rw [findPoint_upsertPoint]
          by_cases hp : p.id = x <;> simp [hp]

theorem genPoints_getElem (sp : Bool) (sE : Payload → SparseVec)
    (dE : Payload → List Rat) :
    ∀ (items : List Payload) (start p : Nat),
      (genPoints sp sE dE start items)[p]? =
        items[p]?.map (genPoint sp sE dE (start + p)) := by
  intro items
  induction items with
  | nil => intro start p; simp [genPoints]
  | cons it rest ih =>
      intro start p
      cases p with
      | zero => simp [genPoints]
      | succ p2 =>
          simp only [genPoints, List.getElem?_cons_succ]
          rw [ih (start + 1) p2]
          have harith : start + 1 + p2 = start + (p2 + 1) := by omega
          rw [harith]

/-- C10: in the batch-ingestion CLI, the upload across all batches is the
flat per-item sequence applied by upsert (conjunct 1, so the batched run
with any batch size produces the same points as the flat enumeration); an
item lacking an `id` key gets the point id `i + j` — its zero-based global
position, batch start plus offset (conjunct 2); two distinct id-less items
therefore never share a default id (conjunct 3); and the store keeps, for
each id, the last uploaded point with that id, so an explicit id equal to
an id-less item's position makes the later upsert overwrite the earlier
point (conjunct 4). -/
theorem cli_default_ids (items : List Payload) (bs : Nat) (sp : Bool)
    (sE : Payload → SparseVec) (dE : Payload → List Rat)
    (cname : String) (s : Store) (c : Collection) (p q : Nat) (x : Val)
    (hc : getCollection s cname = some c) :
    genRun sp sE dE bs cname items 0 s =
      setCollection s cname ⟨c.config,
        upsertPoints c.points (genPoints sp sE dE 0 items)⟩ ∧
    (∀ it, items[p]? = some it → dictGet it "id" = none →
      (genPoints sp sE dE 0 items)[p]?.map Point.id =
        some (.vInt p)) ∧
    (p ≠ q → ∀ itp itq, items[p]? = some itp → items[q]? = some itq →
      dictGet itp "id" = none → dictGet itq "id" = none →
      (genPoints sp sE dE 0 items)[p]?.map Point.id ≠
        (genPoints sp sE dE 0 items)[q]?.map Point.id) ∧
    findPoint (upsertPoints c.points (genPoints sp sE dE 0 items)) x =
      (match lastWithId (genPoints sp sE dE 0 items) x with
       | some pt => some pt
       | none => findPoint c.points x) := by
  refine ⟨?_, ?_, ?_, findPoint_upsertPoints _ _ _⟩
  · rw [genRun_eq sp sE dE bs cname items 0 s c hc, genAllPoints_eq]
  · intro it h1 h2
    rw [genPoints_getElem, h1]
    cases sp <;> simp [genPoint, itemIdVal, h2]
  · intro hpq itp itq h1 h2 h3 h4
    rw [genPoints_getElem, genPoints_getElem, h1, h2]
    cases sp <;> simp [genPoint, itemIdVal, h3, h4] <;> omega

/-- C10 witness: the id-assignment theorem applied at a two-item input
where item 0 has no `id` key and item 1 carries the explicit id `0`. -/
theorem cli_default_ids_witness :
    genRun false (fun _ => ⟨[], []⟩) (fun _ => [1]) 32 "c"
        [[("a", Val.vInt 1)], [("id", Val.vInt 0)]] 0
        [("c", ⟨⟨1, .dot, []⟩, []⟩)] =
      setCollection [("c", ⟨⟨1, .dot, []⟩, []⟩)] "c"
        ⟨(⟨⟨1, .dot, []⟩, []⟩ : Collection).config,
          upsertPoints (⟨⟨1, .dot, []⟩, []⟩ : Collection).points
            (genPoints false (fun _ => ⟨[], []⟩) (fun _ => [1]) 0
              [[("a", Val.vInt 1)], [("id", Val.vInt 0)]])⟩ ∧
    (∀ it, [[("a", Val.vInt 1)], [("id", Val.vInt 0)]][0]? = some it →
      dictGet it "id" = none →
      (genPoints false (fun _ => ⟨[], []⟩) (fun _ => [1]) 0
        [[("a", Val.vInt 1)], [("id", Val.vInt 0)]])[0]?.map Point.id =
        some (.vInt 0)) ∧
    (0 ≠ 1 → ∀ itp itq,
      [[("a", Val.vInt 1)], [("id", Val.vInt 0)]][0]? = some itp →
      [[("a", Val.vInt 1)], [("id", Val.vInt 0)]][1]? = some itq →
      dictGet itp "id" = none → dictGet itq "id" = none →
      (genPoints false (fun _ => ⟨[], []⟩) (fun _ => [1]) 0
        [[("a", Val.vInt 1)], [("id", Val.vInt 0)]])[0]?.map Point.id ≠
        (genPoints false (fun _ => ⟨[], []⟩) (fun _ => [1]) 0
          [[("a", Val.vInt 1)], [("id", Val.vInt 0)]])[1]?.map Point.id) ∧
    findPoint (upsertPoints (⟨⟨1, .dot, []⟩, []⟩ : Collection).points
        (genPoints false (fun _ => ⟨[], []⟩) (fun _ => [1]) 0
          [[("a", Val.vInt 1)], [("id", Val.vInt 0)]])) (Val.vInt 0) =
      (match lastWithId (genPoints false (fun _ => ⟨[], []⟩)
          (fun _ => [1]) 0
          [[("a", Val.vInt 1)], [("id", Val.vInt 0)]]) (Val.vInt 0) with
       | some pt => some pt
       | none => findPoint (⟨⟨1, .dot, []⟩, []⟩ : Collection).points
          (Val.vInt 0)) :=
  cli_default_ids [[("a", Val.vInt 1)], [("id", Val.vInt 0)]] 32 false
    (fun _ => ⟨[], []⟩) (fun _ => [1]) "c"
    [("c", ⟨⟨1, .dot, []⟩, []⟩)] ⟨⟨1, .dot, []⟩, []⟩ 0 1 (Val.vInt 0)
    (by decide)

end Qdrant
